import Mathlib

/-!
Verification of the delimiter-balance scanner in `qvmc/check_braces.py`.

The scanner consumes a list of text lines (each a list of characters),
tracks string-literal and line-comment context, and maintains a stack of
open-delimiter records `(symbol, line, column)` with 1-based positions.
It reports the first unmatched or mismatched closing symbol, or, at end of
input, either the innermost unclosed opener (with a total count) or success.

The embedding below mirrors the Python source statement by statement:
`stepChar` is the body of the inner character loop, `scanLineAux` iterates
it over one line (with fuel equal to the line length, so recursion is
structural and everything computes by `decide`), `scanAll` iterates over
the lines, and `scan` adds the end-of-input step.  `check_braces` adds the
file-not-found shortcut of the outer function, producing the printed
messages.  The Python `string_char` starts as the empty string; it is never
read before being set, so the embedding uses the null character.
-/

namespace CheckBraces

/-- Outcome of a scan, mirroring the four result shapes of the source. -/
inductive Result where
  | Balanced : Result
  | UnmatchedCloser : Char → Nat → Nat → Result
  | MismatchedCloser : Char → Nat → Nat → Char → Nat → Nat → Result
  | UnclosedOpeners : Char → Nat → Nat → Nat → Result
deriving DecidableEq

/-- The `delims` dict of the source: opener mapped to required closer. -/
def delims : List (Char × Char) := [('\x7b', '\x7d'), ('(', ')'), ('[', ']')]

/-- `delims.keys()` of the source. -/
def delimKeys : List Char := delims.map Prod.fst

/-- `delims.values()` of the source. -/
def delimValues : List Char := delims.map Prod.snd

/-- `delims[c]` of the source (only ever applied to openers). -/
def delimsGet (c : Char) : Char := ((delims.lookup c).getD '\x00')

/-- The mutable scan context of the source: the open-delimiter stack
(head is the most recently pushed record), `in_string`, `string_char`
and `in_comment`. -/
structure ScanState where
  stack : List (Char × Nat × Nat)
  in_string : Bool
  string_char : Char
  in_comment : Bool
deriving DecidableEq

/-- The state at the start of a scan. -/
def initState : ScanState := ⟨[], false, '\x00', false⟩

/-- Outcome of processing one character: continue with the next character,
leave the rest of the line uninspected (the `break` on `//`), or terminate
the whole scan with a diagnostic (the early `return`s). -/
inductive StepOut where
  | cont : ScanState → StepOut
  | brk : ScanState → StepOut
  | err : Result → StepOut
deriving DecidableEq

/-- `line[j]` of the source, as a total function; the loop only ever reads
indices that are in bounds, so the default is never observed. -/
def charAt (line : List Char) (j : Nat) : Char := line.getD j '\x00'

/-- Body of the inner `for j, char in enumerate(line)` loop of the source,
for character index `j` (0-based) of line number `lineNo` (1-based). -/
def stepChar (lineNo : Nat) (line : List Char) (j : Nat) (s : ScanState) : StepOut :=
  let char := charAt line j
  if s.in_comment then .cont s
  else if char = '/' ∧ j + 1 < line.length ∧ charAt line (j + 1) = '/' then .brk s
  else if char = '"' ∨ char = '\x27' then
    (if s.in_string = false then .cont { s with in_string := true, string_char := char }
     else if char = s.string_char then
       (if 0 < j ∧ charAt line (j - 1) = '\\' then .cont s
        else .cont { s with in_string := false })
     else .cont s)
  else if s.in_string then .cont s
  else if char ∈ delimKeys then .cont { s with stack := (char, lineNo, j + 1) :: s.stack }
  else if char ∈ delimValues then
    (match s.stack with
     | [] => .err (.UnmatchedCloser char lineNo (j + 1))
     | (start_char, start_line, start_col) :: rest =>
       if char ≠ delimsGet start_char then
         .err (.MismatchedCloser char lineNo (j + 1) (delimsGet start_char) start_line start_col)
       else .cont { s with stack := rest })
  else .cont s

/-- Outcome of processing (the rest of) one line. -/
inductive LineOut where
  | done : ScanState → LineOut
  | err : Result → LineOut
deriving DecidableEq

/-- Iterate `stepChar` from index `j` to the end of the line.  The fuel
argument makes the recursion structural; `scanLine` supplies enough fuel
to reach the end of the line. -/
def scanLineAux (lineNo : Nat) (line : List Char) : Nat → Nat → ScanState → LineOut
  | 0, _, s => .done s
  | fuel + 1, j, s =>
    if j < line.length then
      match stepChar lineNo line j s with
      | .cont s2 => scanLineAux lineNo line fuel (j + 1) s2
      | .brk s2 => .done s2
      | .err r => .err r
    else .done s

/-- Process one whole line from its first character. -/
def scanLine (lineNo : Nat) (line : List Char) (s : ScanState) : LineOut :=
  scanLineAux lineNo line line.length 0 s

/-- Python whitespace stripped by `str.rstrip()` (the ASCII cases). -/
def pyIsSpace (c : Char) : Bool :=
  c == ' ' || c == '\t' || c == '\n' || c == '\x0b' || c == '\x0c' || c == '\r'

/-- `line.rstrip()` of the source. -/
def rstrip (l : List Char) : List Char := (l.reverse.dropWhile pyIsSpace).reverse

/-- The outer `for i, line in enumerate(lines)` loop: process the lines in
order starting at line number `i`, threading the state, stopping at the
first diagnostic. -/
def scanAll : List (List Char) → Nat → ScanState → Except Result ScanState
  | [], _, s => .ok s
  | l :: rest, i, s =>
    match scanLine i (rstrip l) s with
    | .done s2 => scanAll rest (i + 1) s2
    | .err r => .error r

/-- The end-of-input step of the source: a non-empty stack reports its top
record and the stack size, an empty stack reports balance. -/
def finalize (s : ScanState) : Result :=
  match s.stack with
  | [] => .Balanced
  | (c, l, col) :: _ => .UnclosedOpeners c l col s.stack.length

/-- The whole scan over a list of lines. -/
def scan (lines : List (List Char)) : Result :=
  match scanAll lines 1 initState with
  | .error r => r
  | .ok s => finalize s

/-- The console messages printed for each scan outcome. -/
def renderResult : Result → List String
  | .Balanced => ["All delimiters are balanced."]
  | .UnmatchedCloser c l col =>
      ["Error: Unmatched \x27" ++ String.singleton c ++ "\x27 at line " ++ toString l ++
        ", column " ++ toString col]
  | .MismatchedCloser c l col exp ol oc =>
      ["Error: Mismatched delimiter \x27" ++ String.singleton c ++ "\x27 at line " ++
        toString l ++ ", column " ++ toString col ++ ". Expected \x27" ++
        String.singleton exp ++ "\x27 (opened at " ++ toString ol ++ ":" ++ toString oc ++ ")"]
  | .UnclosedOpeners c l col n =>
      ["Error: Unclosed \x27" ++ String.singleton c ++ "\x27 at line " ++ toString l ++
        ", column " ++ toString col,
       "Total unclosed delimiters: " ++ toString n]

/-- The outer function `check_braces`: `content` is `none` when opening the
file raises `FileNotFoundError`, otherwise the list of lines read; the
value is the list of printed messages. -/
def check_braces (content : Option (List (List Char))) (filepath : String) : List String :=
  match content with
  | none => ["File not found: " ++ filepath]
  | some lines => renderResult (scan lines)

/-! ### Helper lemmas: one characterization per branch of the loop body -/

theorem mem_delimKeys_iff (c : Char) : c ∈ delimKeys ↔ c = '\x7b' ∨ c = '(' ∨ c = '[' := by
  simp [delimKeys, delims]

theorem mem_delimValues_iff (c : Char) : c ∈ delimValues ↔ c = '\x7d' ∨ c = ')' ∨ c = ']' := by
  simp [delimValues, delims]

theorem stepChar_closer_empty (lineNo : Nat) (line : List Char) (j : Nat) (s : ScanState)
    (hcom : s.in_comment = false) (hstr : s.in_string = false) (hstk : s.stack = [])
    (hcl : charAt line j ∈ delimValues) :
    stepChar lineNo line j s = .err (.UnmatchedCloser (charAt line j) lineNo (j + 1)) := by
  rcases (mem_delimValues_iff _).1 hcl with h | h | h <;>
    simp [stepChar, h, hcom, hstr, hstk, mem_delimKeys_iff, mem_delimValues_iff]

theorem stepChar_closer_mismatch (lineNo : Nat) (line : List Char) (j : Nat) (s : ScanState)
    (sc : Char) (sl scol : Nat) (rest : List (Char × Nat × Nat))
    (hcom : s.in_comment = false) (hstr : s.in_string = false)
    (hstk : s.stack = (sc, sl, scol) :: rest)
    (hcl : charAt line j ∈ delimValues)
    (hne : charAt line j ≠ delimsGet sc) :
    stepChar lineNo line j s =
      .err (.MismatchedCloser (charAt line j) lineNo (j + 1) (delimsGet sc) sl scol) := by
  rcases (mem_delimValues_iff _).1 hcl with h | h | h <;> rw [h] at hne <;>
    simp [stepChar, h, hcom, hstr, hstk, hne, mem_delimKeys_iff, mem_delimValues_iff]

theorem stepChar_closer_match (lineNo : Nat) (line : List Char) (j : Nat) (s : ScanState)
    (sc : Char) (sl scol : Nat) (rest : List (Char × Nat × Nat))
    (hcom : s.in_comment = false) (hstr : s.in_string = false)
    (hstk : s.stack = (sc, sl, scol) :: rest)
    (hcl : charAt line j ∈ delimValues)
    (heq : charAt line j = delimsGet sc) :
    stepChar lineNo line j s = .cont { s with stack := rest } := by
  rcases (mem_delimValues_iff _).1 hcl with h | h | h <;> rw [h] at heq <;>
    simp [stepChar, h, hcom, hstr, hstk, heq, mem_delimKeys_iff, mem_delimValues_iff] <;>
    exact heq

theorem stepChar_opener (lineNo : Nat) (line : List Char) (j : Nat) (s : ScanState)
    (hcom : s.in_comment = false) (hstr : s.in_string = false)
    (hop : charAt line j ∈ delimKeys) :
    stepChar lineNo line j s =
      .cont { s with stack := (charAt line j, lineNo, j + 1) :: s.stack } := by
  rcases (mem_delimKeys_iff _).1 hop with h | h | h <;>
    simp [stepChar, h, hcom, hstr, mem_delimKeys_iff]

theorem stepChar_in_string_delim (lineNo : Nat) (line : List Char) (j : Nat) (s : ScanState)
    (hcom : s.in_comment = false) (hstr : s.in_string = true)
    (hd : charAt line j ∈ delimKeys ∨ charAt line j ∈ delimValues) :
    stepChar lineNo line j s = .cont s := by
  rcases hd with hd | hd
  · rcases (mem_delimKeys_iff _).1 hd with h | h | h <;> simp [stepChar, h, hcom, hstr]
  · rcases (mem_delimValues_iff _).1 hd with h | h | h <;> simp [stepChar, h, hcom, hstr]

theorem stepChar_comment_marker (lineNo : Nat) (line : List Char) (j : Nat) (s : ScanState)
    (hcom : s.in_comment = false) (hj : j + 1 < line.length)
    (h1 : charAt line j = '/') (h2 : charAt line (j + 1) = '/') :
    stepChar lineNo line j s = .brk s := by
  simp [stepChar, hcom, h1, h2, hj]

theorem stepChar_quote_enter (lineNo : Nat) (line : List Char) (j : Nat) (s : ScanState)
    (hcom : s.in_comment = false) (hstr : s.in_string = false)
    (hq : charAt line j = '"' ∨ charAt line j = '\x27') :
    stepChar lineNo line j s =
      .cont { s with in_string := true, string_char := charAt line j } := by
  rcases hq with h | h <;> simp [stepChar, h, hcom, hstr]

theorem stepChar_quote_escaped (lineNo : Nat) (line : List Char) (j : Nat) (s : ScanState)
    (hcom : s.in_comment = false) (hstr : s.in_string = true)
    (hq : charAt line j = '"' ∨ charAt line j = '\x27')
    (hc : charAt line j = s.string_char)
    (hj : 0 < j) (hbs : charAt line (j - 1) = '\\') :
    stepChar lineNo line j s = .cont s := by
  rcases hq with h | h <;> rw [h] at hc <;>
    simp [stepChar, h, hcom, hstr, hc, hj, hbs]

theorem stepChar_quote_close (lineNo : Nat) (line : List Char) (j : Nat) (s : ScanState)
    (hcom : s.in_comment = false) (hstr : s.in_string = true)
    (hq : charAt line j = '"' ∨ charAt line j = '\x27')
    (hc : charAt line j = s.string_char)
    (hesc : ¬(0 < j ∧ charAt line (j - 1) = '\\')) :
    stepChar lineNo line j s = .cont { s with in_string := false } := by
  rcases hq with h | h <;> rw [h] at hc <;>
    simp [stepChar, h, hcom, hstr, hc, hesc] <;>
    exact fun hn => absurd hc hn

theorem stepChar_quote_other (lineNo : Nat) (line : List Char) (j : Nat) (s : ScanState)
    (hcom : s.in_comment = false) (hstr : s.in_string = true)
    (hq : charAt line j = '"' ∨ charAt line j = '\x27')
    (hc : charAt line j ≠ s.string_char) :
    stepChar lineNo line j s = .cont s := by
  rcases hq with h | h <;> rw [h] at hc <;>
    simp [stepChar, h, hcom, hstr, hc]

theorem stepChar_in_comment_skip (lineNo : Nat) (line : List Char) (j : Nat) (s : ScanState)
    (hcom : s.in_comment = true) : stepChar lineNo line j s = .cont s := by
  simp [stepChar, hcom]

theorem stepChar_quote_stack (lineNo : Nat) (line : List Char) (j : Nat) (s : ScanState)
    (hq : charAt line j = '"' ∨ charAt line j = '\x27') :
    ∃ s2, stepChar lineNo line j s = .cont s2 ∧ s2.stack = s.stack := by
  by_cases hcom : s.in_comment = true
  · exact ⟨s, stepChar_in_comment_skip lineNo line j s hcom, rfl⟩
  rw [Bool.not_eq_true] at hcom
  by_cases hstr : s.in_string = true
  · by_cases hc : charAt line j = s.string_char
    · by_cases hesc : 0 < j ∧ charAt line (j - 1) = '\\'
      · exact ⟨s,
          stepChar_quote_escaped lineNo line j s hcom hstr hq hc hesc.1 hesc.2, rfl⟩
      · exact ⟨{ s with in_string := false },
          stepChar_quote_close lineNo line j s hcom hstr hq hc hesc, rfl⟩
    · exact ⟨s, stepChar_quote_other lineNo line j s hcom hstr hq hc, rfl⟩
  · rw [Bool.not_eq_true] at hstr
    exact ⟨{ s with in_string := true, string_char := charAt line j },
      stepChar_quote_enter lineNo line j s hcom hstr hq, rfl⟩

theorem stepChar_in_string_skip (lineNo : Nat) (line : List Char) (j : Nat) (s : ScanState)
    (hcom : s.in_comment = false) (hstr : s.in_string = true)
    (hq : ¬(charAt line j = '"' ∨ charAt line j = '\x27'))
    (hsl : ¬(charAt line j = '/' ∧ j + 1 < line.length ∧ charAt line (j + 1) = '/')) :
    stepChar lineNo line j s = .cont s := by
  simp [stepChar, hcom, hstr, hq, hsl]

theorem stepChar_plain_skip (lineNo : Nat) (line : List Char) (j : Nat) (s : ScanState)
    (hcom : s.in_comment = false) (hstr : s.in_string = false)
    (hq : ¬(charAt line j = '"' ∨ charAt line j = '\x27'))
    (hsl : ¬(charAt line j = '/' ∧ j + 1 < line.length ∧ charAt line (j + 1) = '/'))
    (hop : ¬ charAt line j ∈ delimKeys) (hcl : ¬ charAt line j ∈ delimValues) :
    stepChar lineNo line j s = .cont s := by
  simp [stepChar, hcom, hstr, hq, hsl, hop, hcl]

theorem stepChar_stack_shape (lineNo : Nat) (line : List Char) (j : Nat) (s s2 : ScanState)
    (h : stepChar lineNo line j s = .cont s2 ∨ stepChar lineNo line j s = .brk s2) :
    s2.stack = s.stack ∨
    (s.in_comment = false ∧ s.in_string = false ∧ charAt line j ∈ delimKeys ∧
      s2.stack = (charAt line j, lineNo, j + 1) :: s.stack) ∨
    (s.in_comment = false ∧ s.in_string = false ∧ charAt line j ∈ delimValues ∧
      ∃ t, s.stack = t :: s2.stack) := by
  by_cases hcom : s.in_comment = true
  · rw [stepChar_in_comment_skip lineNo line j s hcom] at h
    rcases h with h | h
    · cases h
      exact Or.inl rfl
    · cases h
  rw [Bool.not_eq_true] at hcom
  by_cases hq : charAt line j = '"' ∨ charAt line j = '\x27'
  · obtain ⟨t, ht, hts⟩ := stepChar_quote_stack lineNo line j s hq
    rw [ht] at h
    rcases h with h | h
    · cases h
      exact Or.inl hts
    · cases h
  by_cases hsl : charAt line j = '/' ∧ j + 1 < line.length ∧ charAt line (j + 1) = '/'
  · rw [stepChar_comment_marker lineNo line j s hcom hsl.2.1 hsl.1 hsl.2.2] at h
    rcases h with h | h
    · cases h
    · cases h
      exact Or.inl rfl
  by_cases hstr : s.in_string = true
  · rw [stepChar_in_string_skip lineNo line j s hcom hstr hq hsl] at h
    rcases h with h | h
    · cases h
      exact Or.inl rfl
    · cases h
  rw [Bool.not_eq_true] at hstr
  by_cases hop : charAt line j ∈ delimKeys
  · rw [stepChar_opener lineNo line j s hcom hstr hop] at h
    rcases h with h | h
    · cases h
      exact Or.inr (Or.inl ⟨hcom, hstr, hop, rfl⟩)
    · cases h
  by_cases hcl : charAt line j ∈ delimValues
  · rcases hstk : s.stack with _ | ⟨⟨sc, sl, scol⟩, rest⟩
    · rw [stepChar_closer_empty lineNo line j s hcom hstr hstk hcl] at h
      rcases h with h | h <;> cases h
    · by_cases hne : charAt line j = delimsGet sc
      · rw [stepChar_closer_match lineNo line j s sc sl scol rest hcom hstr hstk hcl hne] at h
        rcases h with h | h
        · cases h
          exact Or.inr (Or.inr ⟨hcom, hstr, hcl, (sc, sl, scol), rfl⟩)
        · cases h
      · rw [stepChar_closer_mismatch lineNo line j s sc sl scol rest hcom hstr hstk hcl hne]
          at h
        rcases h with h | h <;> cases h
  · rw [stepChar_plain_skip lineNo line j s hcom hstr hq hsl hop hcl] at h
    rcases h with h | h
    · cases h
      exact Or.inl rfl
    · cases h

theorem stepChar_keeps_in_comment (lineNo : Nat) (line : List Char) (j : Nat)
    (s s2 : ScanState)
    (h : stepChar lineNo line j s = .cont s2 ∨ stepChar lineNo line j s = .brk s2) :
    s2.in_comment = s.in_comment := by
  obtain ⟨stk, instr, schar, incom⟩ := s
  rcases stk with _ | ⟨⟨a, b, c⟩, rest⟩ <;>
    rcases h with h | h <;>
    simp only [stepChar] at h <;>
    split_ifs at h <;>
    simp_all <;>
    (rw [show s2 = _ from h.symm])

/-! ### Helper lemmas: iteration over a line and over the lines -/

theorem scanLineAux_stop (lineNo : Nat) (line : List Char) (fuel j : Nat) (s : ScanState)
    (hj : ¬ j < line.length) :
    scanLineAux lineNo line (fuel + 1) j s = .done s := by
  simp [scanLineAux, hj]

theorem scanLineAux_err (lineNo : Nat) (line : List Char) (fuel j : Nat) (s : ScanState)
    (r : Result) (hj : j < line.length) (h : stepChar lineNo line j s = .err r) :
    scanLineAux lineNo line (fuel + 1) j s = .err r := by
  simp [scanLineAux, hj, h]

theorem scanLineAux_brk (lineNo : Nat) (line : List Char) (fuel j : Nat) (s s2 : ScanState)
    (hj : j < line.length) (h : stepChar lineNo line j s = .brk s2) :
    scanLineAux lineNo line (fuel + 1) j s = .done s2 := by
  simp [scanLineAux, hj, h]

theorem scanLineAux_cont (lineNo : Nat) (line : List Char) (fuel j : Nat) (s s2 : ScanState)
    (hj : j < line.length) (h : stepChar lineNo line j s = .cont s2) :
    scanLineAux lineNo line (fuel + 1) j s = scanLineAux lineNo line fuel (j + 1) s2 := by
  simp [scanLineAux, hj, h]

theorem scanLineAux_keeps_in_comment (lineNo : Nat) (line : List Char) (fuel : Nat) :
    ∀ (j : Nat) (s s2 : ScanState), scanLineAux lineNo line fuel j s = .done s2 →
      s2.in_comment = s.in_comment := by
  induction fuel with
  | zero =>
    intro j s s2 h
    cases h
    rfl
  | succ n ih =>
    intro j s s2 h
    by_cases hj : j < line.length
    · rw [scanLineAux, if_pos hj] at h
      cases hstep : stepChar lineNo line j s with
      | cont t =>
        rw [hstep] at h
        exact (ih _ _ _ h).trans
          (stepChar_keeps_in_comment lineNo line j s t (Or.inl hstep))
      | brk t =>
        rw [hstep] at h
        cases h
        exact stepChar_keeps_in_comment lineNo line j s s2 (Or.inr hstep)
      | err r =>
        rw [hstep] at h
        cases h
    · rw [scanLineAux, if_neg hj] at h
      cases h
      rfl

theorem scanAll_cons_done (l : List Char) (rest : List (List Char)) (i : Nat)
    (s s2 : ScanState) (h : scanLine i (rstrip l) s = .done s2) :
    scanAll (l :: rest) i s = scanAll rest (i + 1) s2 := by
  simp [scanAll, h]

theorem scanAll_cons_err (l : List Char) (rest : List (List Char)) (i : Nat)
    (s : ScanState) (r : Result) (h : scanLine i (rstrip l) s = .err r) :
    scanAll (l :: rest) i s = .error r := by
  simp [scanAll, h]

theorem scan_of_ok (lines : List (List Char)) (s : ScanState)
    (h : scanAll lines 1 initState = .ok s) : scan lines = finalize s := by
  rw [scan, h]

theorem scan_of_error (lines : List (List Char)) (r : Result)
    (h : scanAll lines 1 initState = .error r) : scan lines = r := by
  rw [scan, h]

/-! ### Claim theorems -/

/-- Claim C1: a closing symbol scanned outside string and comment context
with an empty stack terminates the step with `UnmatchedCloser` carrying the
symbol and its 1-based line and column; the error aborts the rest of the
line and all remaining lines, so no further characters are processed; the
message has the shape `Error: Unmatched <char> at line L, column C`; and
the input consisting solely of a closing paren yields `UnmatchedCloser` at
line 1, column 1. -/
theorem c1_unmatched_closer_on_empty_stack :
    (∀ (lineNo : Nat) (line : List Char) (j : Nat) (s : ScanState),
        s.in_comment = false → s.in_string = false → s.stack = [] →
        charAt line j ∈ delimValues →
        stepChar lineNo line j s = .err (.UnmatchedCloser (charAt line j) lineNo (j + 1))) ∧
    (∀ (lineNo : Nat) (line : List Char) (fuel j : Nat) (s : ScanState) (r : Result),
        j < line.length → stepChar lineNo line j s = .err r →
        scanLineAux lineNo line (fuel + 1) j s = .err r) ∧
    (∀ (l : List Char) (rest : List (List Char)) (i : Nat) (s : ScanState) (r : Result),
        scanLine i (rstrip l) s = .err r → scanAll (l :: rest) i s = .error r) ∧
    scan [[')']] = .UnmatchedCloser ')' 1 1 ∧
    renderResult (.UnmatchedCloser ')' 1 1) =
      ["Error: Unmatched \x27)\x27 at line 1, column 1"] :=
  ⟨stepChar_closer_empty, scanLineAux_err, scanAll_cons_err, by decide, by decide⟩

/-- Claim C1 witness: the general part of C1 applied to the one-line input
consisting solely of a closing paren. -/
theorem c1_witness :
    stepChar 1 [')'] 0 initState = .err (.UnmatchedCloser ')' 1 1) ∧
    scanAll [[')']] 1 initState = .error (.UnmatchedCloser ')' 1 1) :=
  ⟨c1_unmatched_closer_on_empty_stack.1 1 [')'] 0 initState rfl rfl rfl (by decide),
   c1_unmatched_closer_on_empty_stack.2.2.1 [')'] [] 1 initState
     (.UnmatchedCloser ')' 1 1) (by decide)⟩

/-- Claim C2: a closing symbol scanned outside string and comment context
with a non-empty stack pops the top record; if the popped opener's required
closer differs from the current character the step terminates with
`MismatchedCloser` carrying the mismatch site, the expected closer and the
opening site, otherwise the scan continues with the popped stack; and for
input of an opening paren followed by a closing bracket the result is
`MismatchedCloser` with symbol bracket, expected paren, opened at line 1
column 1. -/
theorem c2_mismatched_closer_pops_top :
    (∀ (lineNo : Nat) (line : List Char) (j : Nat) (s : ScanState) (sc : Char)
        (sl scol : Nat) (rest : List (Char × Nat × Nat)),
        s.in_comment = false → s.in_string = false → s.stack = (sc, sl, scol) :: rest →
        charAt line j ∈ delimValues →
        (charAt line j ≠ delimsGet sc →
          stepChar lineNo line j s =
            .err (.MismatchedCloser (charAt line j) lineNo (j + 1) (delimsGet sc) sl scol)) ∧
        (charAt line j = delimsGet sc →
          stepChar lineNo line j s = .cont { s with stack := rest })) ∧
    scan [['(', ']']] = .MismatchedCloser ']' 1 2 ')' 1 1 ∧
    renderResult (.MismatchedCloser ']' 1 2 ')' 1 1) =
      ["Error: Mismatched delimiter \x27]\x27 at line 1, column 2. Expected \x27)\x27 (opened at 1:1)"] := by
  refine ⟨?_, by decide, by decide⟩
  intro lineNo line j s sc sl scol rest hcom hstr hstk hcl
  exact ⟨fun hne => stepChar_closer_mismatch lineNo line j s sc sl scol rest
            hcom hstr hstk hcl hne,
         fun heq => stepChar_closer_match lineNo line j s sc sl scol rest
            hcom hstr hstk hcl heq⟩

/-- Claim C2 witness: the general part of C2 applied to the input where a
closing bracket meets an opening paren on top of the stack. -/
theorem c2_witness :
    stepChar 1 ['(', ']'] 1 ⟨[('(', 1, 1)], false, '\x00', false⟩ =
      .err (.MismatchedCloser ']' 1 2 ')' 1 1) :=
  (c2_mismatched_closer_pops_top.1 1 ['(', ']'] 1 ⟨[('(', 1, 1)], false, '\x00', false⟩
    '(' 1 1 [] rfl rfl rfl (by decide)).1 (by decide)

/-- Claim C3: a scan that consumes all lines without an unmatched or
mismatched closer ends with the end-of-input step: a non-empty stack
yields `UnclosedOpeners` from the top-of-stack record with the stack size
as total count, an empty stack yields `Balanced`; and the input consisting
solely of an opening paren yields `UnclosedOpeners` for it at line 1,
column 1 with total count 1. -/
theorem c3_end_of_input_outcome :
    (∀ (lines : List (List Char)) (s : ScanState),
        scanAll lines 1 initState = .ok s → scan lines = finalize s) ∧
    (∀ s : ScanState, s.stack = [] → finalize s = .Balanced) ∧
    (∀ (s : ScanState) (c : Char) (l col : Nat) (rest : List (Char × Nat × Nat)),
        s.stack = (c, l, col) :: rest →
        finalize s = .UnclosedOpeners c l col (rest.length + 1)) ∧
    scan [['(']] = .UnclosedOpeners '(' 1 1 1 ∧
    renderResult (.UnclosedOpeners '(' 1 1 1) =
      ["Error: Unclosed \x27(\x27 at line 1, column 1", "Total unclosed delimiters: 1"] := by
  refine ⟨scan_of_ok, ?_, ?_, by decide, by decide⟩
  · intro s h
    simp [finalize, h]
  · intro s c l col rest h
    simp [finalize, h]

/-- Claim C3 witness: the general part of C3 applied to the one-line input
consisting solely of an opening paren and its final state. -/
theorem c3_witness :
    scan [['(']] = finalize ⟨[('(', 1, 1)], false, '\x00', false⟩ ∧
    finalize ⟨[('(', 1, 1)], false, '\x00', false⟩ = .UnclosedOpeners '(' 1 1 1 :=
  ⟨c3_end_of_input_outcome.1 [['(']] ⟨[('(', 1, 1)], false, '\x00', false⟩ rfl,
   c3_end_of_input_outcome.2.2.1 ⟨[('(', 1, 1)], false, '\x00', false⟩ '(' 1 1 [] rfl⟩

/-- Claim C4: a delimiter character scanned while inside a string literal
is skipped with the state unchanged, so it is neither pushed nor matched;
a quote character never changes the stack; and the one-line input of an
opening paren between double quotes is `Balanced`. -/
theorem c4_strings_ignore_delimiters :
    (∀ (lineNo : Nat) (line : List Char) (j : Nat) (s : ScanState),
        s.in_comment = false → s.in_string = true →
        (charAt line j ∈ delimKeys ∨ charAt line j ∈ delimValues) →
        stepChar lineNo line j s = .cont s) ∧
    (∀ (lineNo : Nat) (line : List Char) (j : Nat) (s : ScanState),
        (charAt line j = '"' ∨ charAt line j = '\x27') →
        ∃ s2, stepChar lineNo line j s = .cont s2 ∧ s2.stack = s.stack) ∧
    scan [['"', '(', '"']] = .Balanced :=
  ⟨stepChar_in_string_delim, stepChar_quote_stack, by decide⟩

/-- Claim C4 witness: the general part of C4 applied to an opening paren
read while inside a double-quoted string. -/
theorem c4_witness :
    stepChar 1 ['"', '(', '"'] 1 ⟨[], true, '"', false⟩ =
      .cont ⟨[], true, '"', false⟩ :=
  c4_strings_ignore_delimiters.1 1 ['"', '(', '"'] 1 ⟨[], true, '"', false⟩
    rfl rfl (Or.inl (by decide))

/-- Claim C5: when the current and next character on the same line are both
slashes and the scan is not already inside a line comment, the step breaks
out of the line with the state unchanged — with no string-context
hypothesis, so this applies even inside a string literal — the rest of the
line is not inspected; line processing never changes the `in_comment`
flag, so comment scope never extends past the end of the line; and the
input of a line comment hiding an opening paren is `Balanced`. -/
theorem c5_line_comment_cuts_line :
    (∀ (lineNo : Nat) (line : List Char) (j : Nat) (s : ScanState),
        s.in_comment = false → j + 1 < line.length →
        charAt line j = '/' → charAt line (j + 1) = '/' →
        stepChar lineNo line j s = .brk s) ∧
    (∀ (lineNo : Nat) (line : List Char) (fuel j : Nat) (s s2 : ScanState),
        j < line.length → stepChar lineNo line j s = .brk s2 →
        scanLineAux lineNo line (fuel + 1) j s = .done s2) ∧
    (∀ (lineNo : Nat) (line : List Char) (fuel j : Nat) (s s2 : ScanState),
        scanLineAux lineNo line fuel j s = .done s2 → s2.in_comment = s.in_comment) ∧
    scan [['/', '/', ' ', '(']] = .Balanced :=
  ⟨stepChar_comment_marker, scanLineAux_brk,
   fun lineNo line fuel => scanLineAux_keeps_in_comment lineNo line fuel, by decide⟩

/-- Claim C5 witness: the general part of C5 applied to a line starting
with two slashes, also while inside a string. -/
theorem c5_witness :
    stepChar 1 ['/', '/', ' ', '('] 0 initState = .brk initState ∧
    stepChar 1 ['/', '/'] 0 ⟨[], true, '"', false⟩ = .brk ⟨[], true, '"', false⟩ ∧
    scanLineAux 1 ['/', '/', ' ', '('] 4 0 initState = .done initState :=
  ⟨c5_line_comment_cuts_line.1 1 ['/', '/', ' ', '('] 0 initState rfl
      (by decide) (by decide) (by decide),
   c5_line_comment_cuts_line.1 1 ['/', '/'] 0 ⟨[], true, '"', false⟩ rfl
      (by decide) (by decide) (by decide),
   c5_line_comment_cuts_line.2.1 1 ['/', '/', ' ', '('] 3 0 initState initState
      (by decide)
      (c5_line_comment_cuts_line.1 1 ['/', '/', ' ', '('] 0 initState rfl
        (by decide) (by decide) (by decide))⟩

/-- Claim C6: the state a line ends with, string flags included, is the
state the next line starts with, so an open string persists across line
boundaries and delimiters on later lines are still skipped; and the
two-line input opening a string before an opening paren and closing
nothing yields `Balanced` because both delimiters fall inside the string. -/
theorem c6_string_state_persists_across_lines :
    (∀ (l : List Char) (rest : List (List Char)) (i : Nat) (s s2 : ScanState),
        scanLine i (rstrip l) s = .done s2 →
        scanAll (l :: rest) i s = scanAll rest (i + 1) s2) ∧
    (∀ (lineNo : Nat) (line : List Char) (j : Nat) (s : ScanState),
        s.in_comment = false → s.in_string = true →
        (charAt line j ∈ delimKeys ∨ charAt line j ∈ delimValues) →
        stepChar lineNo line j s = .cont s) ∧
    scan [['"', '('], [')']] = .Balanced :=
  ⟨scanAll_cons_done, stepChar_in_string_delim, by decide⟩

/-- Claim C6 witness: the general part of C6 applied to a first line that
ends inside a string, showing the second line starts in string mode. -/
theorem c6_witness :
    scanAll [['"', '('], [')']] 1 initState =
      scanAll [[')']] 2 ⟨[], true, '"', false⟩ ∧
    stepChar 2 [')'] 0 ⟨[], true, '"', false⟩ = .cont ⟨[], true, '"', false⟩ :=
  ⟨c6_string_state_persists_across_lines.1 ['"', '('] [[')']] 1 initState
      ⟨[], true, '"', false⟩ (by decide),
   c6_string_state_persists_across_lines.2.1 2 [')'] 0 ⟨[], true, '"', false⟩
      rfl rfl (Or.inr (by decide))⟩

/-- Claim C7: while inside a string, a quote equal to the opening quote
whose immediately preceding character on the same line is a backslash is
treated as escaped and the scan stays in string mode — with no condition
on earlier characters, so also when that backslash follows another
backslash — while a quote at column 1 of a line is never treated as
escaped and exits string mode; and on the one-line input where a doubled
backslash precedes the closing quote, the later opening paren is ignored
and the result is `Balanced`. -/
theorem c7_naive_escape_detection :
    (∀ (lineNo : Nat) (line : List Char) (j : Nat) (s : ScanState),
        s.in_comment = false → s.in_string = true →
        (charAt line j = '"' ∨ charAt line j = '\x27') →
        charAt line j = s.string_char →
        0 < j → charAt line (j - 1) = '\\' →
        stepChar lineNo line j s = .cont s) ∧
    (∀ (lineNo : Nat) (line : List Char) (s : ScanState),
        s.in_comment = false → s.in_string = true →
        (charAt line 0 = '"' ∨ charAt line 0 = '\x27') →
        charAt line 0 = s.string_char →
        stepChar lineNo line 0 s = .cont { s with in_string := false }) ∧
    scan [['"', '\\', '\\', '"', ' ', '(']] = .Balanced :=
  ⟨stepChar_quote_escaped,
   fun lineNo line s hcom hstr hq hc =>
     stepChar_quote_close lineNo line 0 s hcom hstr hq hc (by simp),
   by decide⟩

/-- Claim C7 witness: the general part of C7 applied to a quote preceded
by the second of two backslashes, and to a quote at column 1. -/
theorem c7_witness :
    stepChar 1 ['"', '\\', '\\', '"', ' ', '('] 3 ⟨[], true, '"', false⟩ =
      .cont ⟨[], true, '"', false⟩ ∧
    stepChar 2 ['"'] 0 ⟨[], true, '"', false⟩ = .cont ⟨[], false, '"', false⟩ :=
  ⟨c7_naive_escape_detection.1 1 ['"', '\\', '\\', '"', ' ', '('] 3
      ⟨[], true, '"', false⟩ rfl rfl (Or.inl (by decide)) (by decide)
      (by decide) (by decide),
   c7_naive_escape_detection.2.1 2 ['"'] ⟨[], true, '"', false⟩ rfl rfl
      (Or.inl (by decide)) (by decide)⟩

/-- Claim C8: the stack starts empty, and each processed character either
leaves the stack unchanged, pushes exactly the record of an opening symbol
scanned outside string and comment context, or pops exactly the top record
of a non-empty stack for a closing symbol scanned outside string and
comment context — so the size never goes negative and always equals the
number of openers seen outside string and comment context not yet closed. -/
theorem c8_stack_discipline :
    initState.stack = [] ∧
    (∀ (lineNo : Nat) (line : List Char) (j : Nat) (s s2 : ScanState),
        stepChar lineNo line j s = .cont s2 ∨ stepChar lineNo line j s = .brk s2 →
        s2.stack = s.stack ∨
        (s.in_comment = false ∧ s.in_string = false ∧ charAt line j ∈ delimKeys ∧
          s2.stack = (charAt line j, lineNo, j + 1) :: s.stack) ∨
        (s.in_comment = false ∧ s.in_string = false ∧ charAt line j ∈ delimValues ∧
          ∃ t, s.stack = t :: s2.stack)) :=
  ⟨rfl, stepChar_stack_shape⟩

/-- Claim C8 witness: the step shape of C8 applied to an opening paren
scanned from the initial state. -/
theorem c8_witness :
    (⟨[('(', 1, 1)], false, '\x00', false⟩ : ScanState).stack = initState.stack ∨
    (initState.in_comment = false ∧ initState.in_string = false ∧
      charAt ['('] 0 ∈ delimKeys ∧
      (⟨[('(', 1, 1)], false, '\x00', false⟩ : ScanState).stack =
        (charAt ['('] 0, 1, 0 + 1) :: initState.stack) ∨
    (initState.in_comment = false ∧ initState.in_string = false ∧
      charAt ['('] 0 ∈ delimValues ∧
      ∃ t, initState.stack = t :: (⟨[('(', 1, 1)], false, '\x00', false⟩ : ScanState).stack) :=
  c8_stack_discipline.2 1 ['('] 0 initState ⟨[('(', 1, 1)], false, '\x00', false⟩
    (Or.inl (by decide))

/-- Claim C9: with no file content the operation prints exactly the
message `File not found: <path>`, and that output never coincides with any
output of the scanner, so no scan result, diagnostic or success message is
produced. -/
theorem c9_file_not_found_short_circuit :
    (∀ filepath : String, check_braces none filepath = ["File not found: " ++ filepath]) ∧
    (∀ (filepath : String) (r : Result), renderResult r ≠ check_braces none filepath) := by
  constructor
  · intro filepath
    rfl
  · intro filepath r h
    rcases r with _ | ⟨c, l, col⟩ | ⟨c, l, col, e, ol, oc⟩ | ⟨c, l, col, n⟩ <;>
      simp only [renderResult, check_braces, List.cons.injEq, and_true] at h
    · have h2 := congrArg (fun s => s.data.head?) h
      simp only [String.data_append] at h2
      simp at h2
    · have h2 := congrArg (fun s => s.data.head?) h
      simp only [String.data_append] at h2
      simp at h2
    · have h2 := congrArg (fun s => s.data.head?) h
      simp only [String.data_append] at h2
      simp at h2
    · exact List.cons_ne_nil _ _ h.2

/-- Claim C10: the end-of-input result depends only on the stack — the
string flags, in particular an unterminated string, contribute nothing —
so an unterminated string yields no diagnostic of its own: the one-line
input of an unterminated string is `Balanced`, and with an opening paren
before the quote it is `UnclosedOpeners` for the paren at line 1, column 1
with total count 1. -/
theorem c10_unterminated_string_no_diagnostic :
    (∀ s t : ScanState, s.stack = t.stack → finalize s = finalize t) ∧
    (∀ (lines : List (List Char)) (s : ScanState),
        scanAll lines 1 initState = .ok s → scan lines = finalize s) ∧
    scan [['"', 'a', 'b', 'c']] = .Balanced ∧
    scan [['(', '"', 'a', 'b', 'c']] = .UnclosedOpeners '(' 1 1 1 := by
  refine ⟨?_, scan_of_ok, by decide, by decide⟩
  intro s t h
  unfold finalize
  rw [h]

/-- Claim C10 witness: the general part of C10 applied to the final state
of an unterminated string, whose result equals that of the empty stack
with no string open. -/
theorem c10_witness :
    finalize ⟨[], true, '"', false⟩ = finalize initState ∧
    scan [['"', 'a', 'b', 'c']] = finalize ⟨[], true, '"', false⟩ :=
  ⟨c10_unterminated_string_no_diagnostic.1 ⟨[], true, '"', false⟩ initState rfl,
   c10_unterminated_string_no_diagnostic.2.1 [['"', 'a', 'b', 'c']]
      ⟨[], true, '"', false⟩ rfl⟩

end CheckBraces
